import Mathlib

/-!
Shallow embedding of the telemetry pipeline core
(`src/vNext/shared/AppInsightsCore/src/JavaScriptSDK/AppInsightsCore.ts`).

Modelling conventions:
* JavaScript `null`/`undefined` values are `Option.none`; a JS field that can
  be absent is an `Option` field.
* A plugin object is represented by the observable facts the core reads from
  it: its `identifier`, whether it carries an `initialize` callback
  (`hasInitialize`, read by the validation loop), whether
  `typeof p.processTelemetry === 'function'` (`hasProcessTelemetry`), and its
  `priority` field (absent on initialization-only plugins).  A `null` entry in
  the plugin array behaves exactly like an entry without an initialize
  callback (both fail the same validation check before any other field is
  read), so it is represented by `hasInitialize := false`.
* Calls the core makes into collaborators (`setNextPlugin`, plugin
  `initialize`, listener `eventsDiscarded`, `processTelemetry` dispatch) are
  recorded as data (lists of calls / returned values) instead of being run.
* `Array.prototype.sort` with the comparator of lines 76-93 is modelled as a
  stable insertion sort (`List.insertionSort`); ES2019 requires `sort` to be
  stable, and a comparator result of `undefined` is `ToNumber`-converted to
  `NaN` and then treated as `+0` by `SortCompare`, i.e. as a tie.
* `ChannelController.ts`, `NotificationManager.ts` and `DiagnosticLogger.ts`
  are not part of the sources; the slices of their behaviour the core depends
  on are modelled from the spec and marked as such.
-/

/-- Telemetry item (ITelemetryItem): name, instrumentation key, timestamp,
schema version, base type and base-data payload (its `message` field). -/
structure TelemetryItem where
  name : Option String
  iKey : Option String
  time : Option String
  ver : Option String
  baseType : Option String
  baseData : Option String
deriving DecidableEq, Repr

/-- Plugin as observed by the core (IPlugin / ITelemetryPlugin). -/
structure IPlugin where
  identifier : String
  hasInitialize : Bool
  hasProcessTelemetry : Bool
  priority : Option Int
deriving DecidableEq, Repr

/-- Configuration record (IConfiguration fields the core reads). -/
structure Config where
  instrumentationKey : Option String
  extensions : Option (List IPlugin)
  diagnosticLogInterval : Option Int
deriving DecidableEq, Repr

/-- Modelled from the spec: `INotificationListener` (the interface file is not
under src/).  A listener is identified by an id and may or may not implement
the discard-handling capability (section 4.3 of the spec: only listeners that
implement it are invoked). -/
structure INotificationListener where
  id : Nat
  hasEventsDiscarded : Bool
deriving DecidableEq, Repr

/-- Modelled from the spec: `NotificationManager.ts` is not under src/.  The
manager is a registry of observers (section 4.3). -/
structure NotificationManager where
  listeners : List INotificationListener
deriving DecidableEq, Repr

/-- Reason code attached to a discard notification
(EventsDiscardedReason; only InvalidEvent is used by the core). -/
inductive EventsDiscardedReason where
  | invalidEvent
deriving DecidableEq, Repr

/-- One observed invocation of a listener's discard callback: which listener
was invoked, with which discarded items and which reason. -/
structure DiscardNotification where
  listener : INotificationListener
  items : List (Option TelemetryItem)
  reason : EventsDiscardedReason
deriving DecidableEq, Repr

/-- Modelled from the spec: a channel-group control object exposes at minimum
whether the channel is active or paused (section 6, IChannelControls). -/
structure IChannelControls where
  isPaused : Bool
deriving DecidableEq, Repr

/-- Modelled from the spec: an internal diagnostic message carries a message
id and a text (section 3, Diagnostic Message). -/
structure InternalLogMessage where
  messageId : Nat
  message : String
deriving DecidableEq, Repr

/-- Modelled from the spec: `DiagnosticLogger.ts` is not under src/.  The
logger owns an append-only FIFO queue of diagnostic messages (section 4.4). -/
structure DiagnosticLogger where
  queue : List InternalLogMessage
deriving DecidableEq, Repr

/-- Modelled from the spec: the Channel Controller collaborator (section 6;
`ChannelController.ts` is not under src/).  It exposes a priority value placed
into the plugin ordering and, once initialized with the configuration and the
full plugin list, a collection of channel groups; `mkChannels` is the channel
groups its initialization constructs from those arguments. -/
structure ChannelController where
  priority : Int
  mkChannels : Config → List IPlugin → List (List IChannelControls)

/-- The Channel Controller as it appears inside the `_extensions` array: it is
a processing plugin carrying the controller's priority (section 6c). -/
def channelPlugin (cc : ChannelController) : IPlugin :=
  { identifier := "ChannelController"
    hasInitialize := true
    hasProcessTelemetry := true
    priority := some cc.priority }

/-- State of one `AppInsightsCore` instance.  The `setNextCalls`,
`initCalls` and `consoleWarnings` fields record the calls the core has made
into its collaborators (successor wiring, plugin setup, console warnings). -/
structure AppInsightsCore where
  channelController : ChannelController
  config : Option Config
  logger : Option DiagnosticLogger
  extensions : List IPlugin
  notificationManager : NotificationManager
  isInitialized : Bool
  channelControls : List (List IChannelControls)
  setNextCalls : List (IPlugin × IPlugin)
  initCalls : List IPlugin
  consoleWarnings : List String

/-- A fresh core as built by the constructor (lines 31-34): empty extension
array, a channel controller, nothing else set up yet. -/
def newAppInsightsCore (cc : ChannelController) : AppInsightsCore :=
  { channelController := cc
    config := none
    logger := none
    extensions := []
    notificationManager := NotificationManager.mk []
    isInitialized := false
    channelControls := []
    setNextCalls := []
    initCalls := []
    consoleWarnings := [] }

/-- Errors thrown by `initialize` (lines 40, 44, 68, 138). -/
inductive InitError where
  | alreadyInitialized
  | invalidConfiguration
  | validationFailed
  | noChannelsAvailable
deriving DecidableEq, Repr

/-- Errors thrown by `track` (lines 151, 231, 236, 241). -/
inductive TrackError where
  | invalidItem
  | nameRequired
  | timeRequired
  | iKeyRequired
deriving DecidableEq, Repr

/-- The comparator passed to `sort` (lines 76-93), returning the JS number it
produces.  When both plugins expose `processTelemetry` the result is
`extA.priority - extB.priority`; a missing priority there yields `NaN`, which
`SortCompare` treats as `+0`, hence the `0`.  When neither exposes it the
comparator returns `undefined`, again treated as `+0`. -/
def pluginSortCompare (a b : IPlugin) : Int :=
  if a.hasProcessTelemetry && b.hasProcessTelemetry then
    match a.priority, b.priority with
    | some pa, some pb => pa - pb
    | _, _ => 0
  else if a.hasProcessTelemetry && !b.hasProcessTelemetry then 1
  else if !a.hasProcessTelemetry && b.hasProcessTelemetry then (-1)
  else 0

/-- Order relation induced by the sort comparator: `a` may stay before `b`. -/
def pluginLe (a b : IPlugin) : Prop := pluginSortCompare a b ≤ 0

instance : DecidableRel pluginLe :=
  fun a b => inferInstanceAs (Decidable (pluginSortCompare a b ≤ 0))

/-- Numeric priority of a plugin, defaulting to 0; only used under the
hypothesis that the priority field is present. -/
def pVal (q : IPlugin) : Int := q.priority.getD 0

/-- One step of the duplicate-priority scan (lines 97-107).  The accumulator
is the `priority` bookkeeping object (an association from priority value to
the identifier first seen with it) together with the warnings written to the
console so far.  `if (t && t.priority)` is a JS truthiness test, so a plugin
with priority `0` (or no priority) is skipped entirely. -/
def dupPriorityStep (acc : List (Int × String) × List String) (ext : IPlugin) :
    List (Int × String) × List String :=
  match ext.priority with
  | some p =>
    if p ≠ 0 then
      match acc.1.lookup p with
      | some prevId =>
        (acc.1, acc.2 ++ ["Two extensions have same priority" ++ prevId ++ ", " ++ ext.identifier])
      | none => (acc.1 ++ [(p, ext.identifier)], acc.2)
    else acc
  | none => acc

/-- Console warnings produced by the duplicate-priority scan over the sorted
extension array (lines 97-107). -/
def dupPriorityWarnings (l : List IPlugin) : List String :=
  (l.foldl dupPriorityStep ([], [])).2

/-- The successor-wiring loop (lines 109-124) over the sorted extension
array, returning the `setNextPlugin` calls it performs in order.  The loop
index stops before the last element; an entry without a `processTelemetry`
function is skipped (`continue`); reaching an entry whose priority equals the
channel controller's priority breaks out of the loop; otherwise
`curr.setNextPlugin(extensions[idx + 1])` is called. -/
def setNextLoop (ccPriority : Int) : List IPlugin → List (IPlugin × IPlugin)
  | a :: b :: rest =>
    if a.hasProcessTelemetry = false then setNextLoop ccPriority (b :: rest)
    else if a.priority = some ccPriority then []
    else (a, b) :: setNextLoop ccPriority (b :: rest)
  | _ => []

/-- JS comparison `p < q` where `p` is the possibly-absent priority field
(line 132): `undefined < q` is false. -/
def jsLtPriority (p : Option Int) (q : Int) : Bool :=
  match p with
  | some v => decide (v < q)
  | none => false

/-- The `initialize` method (lines 36-141), renamed because of the host
toolchain; returns the state of the instance after the call together with the
error thrown, if any.  Mutations performed before a throw are kept in the
returned state, exactly as a JS exception leaves the object. -/
def coreInitialize (st : AppInsightsCore) (config : Option Config)
    (exts : List IPlugin) : AppInsightsCore × Option InitError :=
  if st.isInitialized then
    (st, some InitError.alreadyInitialized)
  else
    match config with
    | none => (st, some InitError.invalidConfiguration)
    | some cfg =>
      if cfg.instrumentationKey = none then (st, some InitError.invalidConfiguration)
      else
        let cfgExts := (cfg.extensions).getD []
        let cfg' : Config := { cfg with extensions := some cfgExts }
        let merged := st.extensions ++ exts ++ cfgExts
        let st1 := { st with
          config := some cfg'
          notificationManager := NotificationManager.mk []
          logger := some (DiagnosticLogger.mk [])
          extensions := merged }
        if !(merged.all (fun e => e.hasInitialize)) then
          (st1, some InitError.validationFailed)
        else
          let sorted := List.insertionSort pluginLe (merged ++ [channelPlugin st.channelController])
          let warnings := dupPriorityWarnings sorted
          let calls := setNextLoop st.channelController.priority sorted
          let channels := st.channelController.mkChannels cfg' sorted
          let inited := sorted.filter (fun e => jsLtPriority e.priority st.channelController.priority)
          let st2 := { st1 with
            extensions := sorted
            consoleWarnings := st1.consoleWarnings ++ warnings
            setNextCalls := calls
            channelControls := channels
            initCalls := inited }
          if channels.length = 0 then (st2, some InitError.noChannelsAvailable)
          else ({ st2 with isInitialized := true }, none)

/-- The `getTransmissionControls` accessor (lines 143-145): the channel
controller's current channel-group collection. -/
def getTransmissionControls (st : AppInsightsCore) : List (List IChannelControls) :=
  st.channelControls

/-- Modelled from the spec: `NotificationManager.eventsDiscarded`
(section 4.3; `NotificationManager.ts` is not under src/) invokes every
currently registered listener that implements the discard-handling capability,
passing the discarded items and the reason code.  The returned list records
those invocations in registration order. -/
def eventsDiscarded (nm : NotificationManager) (items : List (Option TelemetryItem))
    (reason : EventsDiscardedReason) : List DiscardNotification :=
  (nm.listeners.filter (fun l => l.hasEventsDiscarded)).map
    (fun l => DiscardNotification.mk l items reason)

/-- JS truthiness of a possibly-absent string: `undefined`, `null` and the
empty string are falsy. -/
def falsyString : Option String → Bool
  | none => true
  | some s => decide (s = "")

/-- The default-filling prefix of `track` (lines 154-165): a falsy `iKey` is
replaced by the configured instrumentation key, a falsy `time` by the current
timestamp, and a `null`/`undefined` `ver` by "4.0" (an empty-string `ver` is
kept, since that check uses `isNullOrUndefined`, not truthiness). -/
def fillDefaults (configIKey : Option String) (now : String) (t : TelemetryItem) :
    TelemetryItem :=
  let t1 := if falsyString t.iKey then { t with iKey := configIKey } else t
  let t2 := if falsyString t1.time then { t1 with time := some now } else t1
  if t2.ver = none then { t2 with ver := some "4.0" } else t2

/-- The `_validateTelmetryItem` method (lines 227-243, source spelling):
checks name, then timestamp, then instrumentation key; each failure first
raises an InvalidEvent discard notification (the first component, in raise
order) and then throws the corresponding error (the second component). -/
def validateTelmetryItem (nm : NotificationManager) (t : TelemetryItem) :
    List DiscardNotification × Option TrackError :=
  if t.name = none then
    (eventsDiscarded nm [some t] EventsDiscardedReason.invalidEvent, some TrackError.nameRequired)
  else if t.time = none then
    (eventsDiscarded nm [some t] EventsDiscardedReason.invalidEvent, some TrackError.timeRequired)
  else if t.iKey = none then
    (eventsDiscarded nm [some t] EventsDiscardedReason.invalidEvent, some TrackError.iKeyRequired)
  else ([], none)

/-- The `track` method (lines 147-180).  `now` is the value
`new Date().toISOString()` would produce during this call.  The result is the
list of discard notifications raised (in order, all raised before any throw)
and either the error thrown or the item as dispatched together with the plugin
whose `processTelemetry` hook received it (the first entry of the extension
array exposing one; the loop breaks after that single dispatch). -/
def track (st : AppInsightsCore) (telemetryItem : Option TelemetryItem) (now : String) :
    List DiscardNotification × Except TrackError (TelemetryItem × Option IPlugin) :=
  match telemetryItem with
  | none =>
    (eventsDiscarded st.notificationManager [none] EventsDiscardedReason.invalidEvent,
      Except.error TrackError.invalidItem)
  | some t =>
    let t' := fillDefaults (st.config.bind (fun c => c.instrumentationKey)) now t
    match validateTelmetryItem st.notificationManager t' with
    | (notifs, some e) => (notifs, Except.error e)
    | (_, none) =>
      ([], Except.ok (t', st.extensions.find? (fun e => e.hasProcessTelemetry)))

/-- The interval computation of `pollInternalLogs` (lines 204-207):
`!(interval > 0)`, with an absent configured value comparing as `NaN > 0`,
selects the default 10000 ms period. -/
def pollInternalLogsInterval (cfg : Config) : Int :=
  match cfg.diagnosticLogInterval with
  | some i => if i > 0 then i else 10000
  | none => 10000

/-- Modelled from the spec: `_InternalLogMessage.dataType`
(`DiagnosticLogger.ts` is not under src/), the base type marking a synthetic
item as an internal-log item. -/
def internalLogDataType : String := "MessageData"

/-- Conversion of one queued diagnostic message into a synthetic telemetry
item inside the flush callback (lines 213-219). -/
def logMessageToTelemetryItem (cfg : Config) (now : String) (m : InternalLogMessage) :
    TelemetryItem :=
  { name := some ("InternalMessageId: " ++ toString m.messageId)
    iKey := cfg.instrumentationKey
    time := some now
    ver := none
    baseType := some internalLogDataType
    baseData := some m.message }

/-- One firing of the flush callback of `pollInternalLogs` (lines 209-224).
`queueAtStart` is the content of `logger.queue` when the callback starts;
`appendedDuringDrain` are the messages pushed onto that same array while the
`forEach` drain runs (for example by a plugin logging during `track`).
`Array.prototype.forEach` visits only the elements present when iteration
begins, so exactly `queueAtStart` is converted and submitted; the trailing
`queue.length = 0` then truncates the whole array - including the messages
appended during the drain - so the queue left behind is empty. -/
def pollInternalLogsFlush (cfg : Config) (now : String)
    (queueAtStart appendedDuringDrain : List InternalLogMessage) :
    List TelemetryItem × List InternalLogMessage :=
  (queueAtStart.map (logMessageToTelemetryItem cfg now), [])

/-- The property the spec asserts of a successful successor wiring: `r` is
the element of the pipeline with the smallest priority strictly above `q`'s
priority. -/
def nextHigherOf (all : List IPlugin) (q r : IPlugin) : Prop :=
  r ∈ all ∧ pVal q < pVal r ∧ ∀ x ∈ all, pVal q < pVal x → pVal r ≤ pVal x

/-- Post-state property asserted by the pipeline-ordering claim: every plugin
below the channel controller's priority received exactly one `setNextPlugin`
call, carrying the plugin of next-higher priority; plugins above the
controller's priority received none; and `track` dispatches to the plugin of
lowest priority (and to no other plugin). -/
def C1Post (st' : AppInsightsCore) (plugins all : List IPlugin) (ccP : Int) : Prop :=
  (∀ q ∈ plugins, pVal q < ccP →
      ∃ r, st'.setNextCalls.filter (fun pr => decide (pr.1 = q)) = [(q, r)] ∧
        nextHigherOf all q r) ∧
  (∀ q ∈ plugins, ccP < pVal q → ∀ pr ∈ st'.setNextCalls, pr.1 ≠ q) ∧
  (∃ q0, st'.extensions.find? (fun e => e.hasProcessTelemetry) = some q0 ∧
      q0 ∈ plugins ∧ pVal q0 < ccP ∧
      (∀ x ∈ plugins, pVal x < ccP → pVal q0 ≤ pVal x) ∧
      (∀ t now notifs it d,
          track st' (some t) now = (notifs, Except.ok (it, d)) → d = some q0) ∧
      (∀ n k now, ¬(k = "") →
          track st' (some (TelemetryItem.mk (some n) (some k) none none none none)) now =
            ([], Except.ok
              (TelemetryItem.mk (some n) (some k) (some now) (some "4.0") none none,
                some q0))))

/-! Concrete collaborator instances used by the closed witness theorems. -/

/-- A channel controller whose initialization yields one channel group. -/
def ccOne : ChannelController := ChannelController.mk 500 (fun _ _ => [[IChannelControls.mk false]])

/-- A channel controller whose initialization yields no channel groups. -/
def ccZero : ChannelController := ChannelController.mk 500 (fun _ _ => [])

/-- A configuration carrying a non-empty instrumentation key. -/
def cfgGood : Config := Config.mk (some "ikey") none none

/-- A configuration whose instrumentation key is the empty string. -/
def cfgEmptyKey : Config := Config.mk (some "") none none

/-- A processing plugin of priority 3. -/
def pluginA : IPlugin := IPlugin.mk "A" true true (some 3)

/-- A processing plugin of priority 7. -/
def pluginB : IPlugin := IPlugin.mk "B" true true (some 7)

/-- An initialization-only plugin: no processing hook, no priority. -/
def pluginSetupOnly : IPlugin := IPlugin.mk "Setup" true false none

/-- A listener implementing the discard capability. -/
def listenerOne : INotificationListener := INotificationListener.mk 1 true

/-- A second listener implementing the discard capability. -/
def listenerTwo : INotificationListener := INotificationListener.mk 2 true

/-- A diagnostic message present in the queue when a flush starts. -/
def msgFirst : InternalLogMessage := InternalLogMessage.mk 1 "first"

/-- A diagnostic message appended to the queue during the drain. -/
def msgSecond : InternalLogMessage := InternalLogMessage.mk 2 "second"

/-! ## Helper lemmas -/

/-- On a state that fails an early check, `coreInitialize` leaves `initCalls`
untouched; on success (or channel failure) `initCalls` is the filter of the
sorted array by the JS comparison `priority < channelController.priority`, so
every recorded setup call went to a plugin passing that comparison. -/
lemma mem_initCalls_coreInitialize (st : AppInsightsCore) (config : Option Config)
    (exts : List IPlugin) (x : IPlugin)
    (hst : st.initCalls = [])
    (hx : x ∈ (coreInitialize st config exts).1.initCalls) :
    jsLtPriority x.priority st.channelController.priority = true := by
  unfold coreInitialize at hx
  dsimp only at hx
  split at hx
  · simp [hst] at hx
  · split at hx
    · simp [hst] at hx
    · split at hx
      · simp [hst] at hx
      · split at hx
        · simp [hst] at hx
        · split at hx
          · exact (List.mem_filter.mp hx).2
          · exact (List.mem_filter.mp hx).2

/-- Every `setNextPlugin` call recorded by the wiring loop has a caller that
exposes `processTelemetry` (entries without one are skipped by `continue`). -/
lemma setNextLoop_fst_hasProcess (ccP : Int) :
    ∀ (l : List IPlugin), ∀ pr ∈ setNextLoop ccP l, pr.1.hasProcessTelemetry = true := by
  intro l
  induction l with
  | nil => intro pr hpr; simp [setNextLoop] at hpr
  | cons a t ih =>
    cases t with
    | nil => intro pr hpr; simp [setNextLoop] at hpr
    | cons b r =>
      intro pr hpr
      unfold setNextLoop at hpr
      by_cases hpt : a.hasProcessTelemetry = false
      · rw [if_pos hpt] at hpr
        exact ih pr hpr
      · rw [if_neg hpt] at hpr
        by_cases hcc : a.priority = some ccP
        · rw [if_pos hcc] at hpr; simp at hpr
        · rw [if_neg hcc] at hpr
          rcases List.mem_cons.mp hpr with rfl | hmem
          · cases h2 : a.hasProcessTelemetry with
            | false => exact absurd h2 hpt
            | true => rfl
          · exact ih pr hmem

/-- Every caller recorded in `setNextCalls` after `coreInitialize` exposes a
processing hook. -/
lemma mem_setNextCalls_coreInitialize (st : AppInsightsCore) (config : Option Config)
    (exts : List IPlugin) (pr : IPlugin × IPlugin)
    (hst : st.setNextCalls = [])
    (hpr : pr ∈ (coreInitialize st config exts).1.setNextCalls) :
    pr.1.hasProcessTelemetry = true := by
  unfold coreInitialize at hpr
  dsimp only at hpr
  split at hpr
  · simp [hst] at hpr
  · split at hpr
    · simp [hst] at hpr
    · split at hpr
      · simp [hst] at hpr
      · split at hpr
        · simp [hst] at hpr
        · split at hpr
          · exact setNextLoop_fst_hasProcess _ _ pr hpr
          · exact setNextLoop_fst_hasProcess _ _ pr hpr

/-- A successful `track` dispatches to the first entry of the extension array
exposing `processTelemetry`. -/
lemma track_ok_dispatch (st2 : AppInsightsCore) (t : TelemetryItem) (now : String)
    (notifs : List DiscardNotification) (it : TelemetryItem) (d : Option IPlugin)
    (h : track st2 (some t) now = (notifs, Except.ok (it, d))) :
    d = st2.extensions.find? (fun e => e.hasProcessTelemetry) := by
  unfold track at h
  dsimp only at h
  split at h
  · simp at h
  · simp only [Prod.mk.injEq, Except.ok.injEq] at h
    exact h.2.2.symm

/-- The plugin a successful `track` dispatches to exposes `processTelemetry`. -/
lemma track_dispatch_hasProcess (st2 : AppInsightsCore) (t : TelemetryItem) (now : String)
    (notifs : List DiscardNotification) (it : TelemetryItem) (q : IPlugin)
    (h : track st2 (some t) now = (notifs, Except.ok (it, some q))) :
    q.hasProcessTelemetry = true := by
  have hd := track_ok_dispatch st2 t now notifs it (some q) h
  have hp := List.find?_some hd.symm
  simpa using hp

/-- A core whose initialized flag is not set never rejects `initialize` with
the double-initialize error. -/
lemma coreInitialize_ne_already (st : AppInsightsCore) (config : Option Config)
    (exts : List IPlugin) (h : st.isInitialized = false) :
    (coreInitialize st config exts).2 ≠ some InitError.alreadyInitialized := by
  unfold coreInitialize
  rw [h]
  dsimp only
  rw [if_neg (by simp)]
  cases config with
  | none => simp
  | some cfg =>
    dsimp only
    split
    · simp
    · split
      · simp
      · split
        · simp
        · simp

/-! ## Claim theorems -/

/-- C2: a second `initialize` call on an instance whose one-time
initialization already completed (its initialized flag is set, which only a
successful first call does) throws the double-initialize error and returns
with the instance state exactly as the first call left it: extension list,
pipeline links, configuration, notification manager and logger untouched. -/
theorem c2_doubleInitRejected (st : AppInsightsCore) (config : Option Config)
    (exts : List IPlugin) (h : st.isInitialized = true) :
    coreInitialize st config exts = (st, some InitError.alreadyInitialized) := by
  unfold coreInitialize
  rw [h]
  simp

/-- C2 witness: the rejection at a concrete initialized instance. -/
theorem c2_doubleInitRejected_witness :
    coreInitialize { newAppInsightsCore ccOne with isInitialized := true }
        (some cfgGood) [pluginA] =
      ({ newAppInsightsCore ccOne with isInitialized := true },
        some InitError.alreadyInitialized) :=
  c2_doubleInitRejected _ _ _ rfl

/-- C5: `track(null)` raises the InvalidEvent error and, before the throw,
delivers exactly one discard notification - carrying the single discarded
(null) item and the InvalidEvent reason - to every listener registered with
the notification manager, in registration order.  The notification manager is
modelled from the spec (section 4.3); the hypothesis states that every
registered listener implements the discard capability, since only those are
invoked by `eventsDiscarded`. -/
theorem c5_trackNull (st : AppInsightsCore) (now : String)
    (h : ∀ l ∈ st.notificationManager.listeners, l.hasEventsDiscarded = true) :
    track st none now =
      (st.notificationManager.listeners.map
          (fun l => DiscardNotification.mk l [none] EventsDiscardedReason.invalidEvent),
        Except.error TrackError.invalidItem) := by
  unfold track eventsDiscarded
  rw [List.filter_eq_self.mpr h]

/-- C5 witness: two registered listeners each receive exactly one InvalidEvent
discard notification when `track(null)` is called. -/
theorem c5_trackNull_witness :
    track { newAppInsightsCore ccOne with
              notificationManager := NotificationManager.mk [listenerOne, listenerTwo] }
        none "2020-01-01T00:00:00.000Z" =
      ([DiscardNotification.mk listenerOne [none] EventsDiscardedReason.invalidEvent,
        DiscardNotification.mk listenerTwo [none] EventsDiscardedReason.invalidEvent],
        Except.error TrackError.invalidItem) :=
  c5_trackNull _ _ (by decide)

/-- C6: an initialization-only plugin (one without a processing hook) never
receives a `setNextPlugin` call during `initialize` and is never the plugin a
subsequent `track` dispatches to, regardless of its position in the input
list. -/
theorem c6_initOnlyNeverWired (st : AppInsightsCore) (config : Option Config)
    (exts : List IPlugin) (q : IPlugin)
    (hst : st.setNextCalls = [])
    (hq : q.hasProcessTelemetry = false) :
    (∀ pr ∈ (coreInitialize st config exts).1.setNextCalls, pr.1 ≠ q) ∧
    (∀ t now notifs it d,
        track (coreInitialize st config exts).1 (some t) now =
            (notifs, Except.ok (it, d)) →
          d ≠ some q) := by
  constructor
  · intro pr hpr hq'
    have hpt := mem_setNextCalls_coreInitialize st config exts pr hst hpr
    rw [hq', hq] at hpt
    simp at hpt
  · intro t now notifs it d htr hdq
    rw [hdq] at htr
    have hpt := track_dispatch_hasProcess _ _ _ _ _ _ htr
    rw [hq] at hpt
    simp at hpt

/-- C6 witness: the property at a concrete run with an initialization-only
plugin placed first in the input list. -/
theorem c6_initOnlyNeverWired_witness :
    (∀ pr ∈ (coreInitialize (newAppInsightsCore ccOne) (some cfgGood)
        [pluginSetupOnly, pluginA]).1.setNextCalls, pr.1 ≠ pluginSetupOnly) ∧
    (∀ t now notifs it d,
        track (coreInitialize (newAppInsightsCore ccOne) (some cfgGood)
            [pluginSetupOnly, pluginA]).1 (some t) now =
            (notifs, Except.ok (it, d)) →
          d ≠ some pluginSetupOnly) :=
  c6_initOnlyNeverWired _ _ _ _ rfl rfl

/-- C10: a plugin without a priority field never receives a setup call from
the core: the post-channel loop initializes only extensions for which the JS
comparison `priority < channelController.priority` holds, and that comparison
is false when the priority is absent. -/
theorem c10_noPriorityNoSetup (st : AppInsightsCore) (config : Option Config)
    (exts : List IPlugin) (q : IPlugin)
    (hst : st.initCalls = [])
    (hq : q.priority = none) :
    (∀ x ∈ (coreInitialize st config exts).1.initCalls,
        jsLtPriority x.priority st.channelController.priority = true) ∧
    q ∉ (coreInitialize st config exts).1.initCalls := by
  constructor
  · intro x hx
    exact mem_initCalls_coreInitialize st config exts x hst hx
  · intro hmem
    have hlt := mem_initCalls_coreInitialize st config exts q hst hmem
    rw [hq] at hlt
    simp [jsLtPriority] at hlt

/-- C10 witness: the property at a concrete run containing an
initialization-only plugin. -/
theorem c10_noPriorityNoSetup_witness :
    (∀ x ∈ (coreInitialize (newAppInsightsCore ccOne) (some cfgGood)
        [pluginA, pluginSetupOnly]).1.initCalls,
        jsLtPriority x.priority (newAppInsightsCore ccOne).channelController.priority = true) ∧
    pluginSetupOnly ∉ (coreInitialize (newAppInsightsCore ccOne) (some cfgGood)
        [pluginA, pluginSetupOnly]).1.initCalls :=
  c10_noPriorityNoSetup _ _ _ _ rfl rfl

/-- C9 counterexample: the claim says a configuration whose instrumentation
key is the empty string makes `initialize` fail with InvalidConfiguration.
The code only tests `isNullOrUndefined(config.instrumentationKey)`, so the
empty string passes the check and, with one channel available, this concrete
call completes with no error at all. -/
theorem c9_emptyKeyAccepted :
    (coreInitialize (newAppInsightsCore ccOne) (some cfgEmptyKey) []).2 = none := by
  rfl

/-- C9 amended: `initialize` fails with InvalidConfiguration exactly when the
configuration is null/undefined or its instrumentation key is
null/undefined; a configuration whose key is any string - the empty string
included - passes the check. -/
theorem c9_configCheck (st : AppInsightsCore) (config : Option Config)
    (exts : List IPlugin) (h : st.isInitialized = false) :
    ((coreInitialize st config exts).2 = some InitError.invalidConfiguration ↔
      config.bind (fun c => c.instrumentationKey) = none) := by
  cases config with
  | none => simp [coreInitialize, h]
  | some cfg =>
    by_cases h2 : cfg.instrumentationKey = none
    · simp [coreInitialize, h, h2]
    · simp only [Option.some_bind]
      constructor
      · intro hl
        exfalso
        unfold coreInitialize at hl
        rw [h] at hl
        dsimp only at hl
        rw [if_neg (by simp)] at hl
        rw [if_neg h2] at hl
        split at hl
        · simp at hl
        · split at hl
          · simp at hl
          · simp at hl
      · intro hr
        exact absurd hr h2

/-- C9 witness: the amended equivalence at a concrete null configuration. -/
theorem c9_configCheck_witness :
    ((coreInitialize (newAppInsightsCore ccOne) none []).2 =
        some InitError.invalidConfiguration ↔
      (none : Option Config).bind (fun c => c.instrumentationKey) = none) :=
  c9_configCheck _ _ _ rfl

/-- C3: when the channel controller exposes zero channel groups after its
initialization, `initialize` throws NoChannelsAvailable,
`getTransmissionControls()` returns the empty collection, and the core is
left with its initialized flag unset, so no later `initialize` call on the
resulting state is rejected as a double-initialize. -/
theorem c3_noChannels (st : AppInsightsCore) (cfg : Config) (exts : List IPlugin)
    (h1 : st.isInitialized = false)
    (h2 : ¬(cfg.instrumentationKey = none))
    (h3 : ((st.extensions ++ exts ++ (cfg.extensions).getD []).all
        (fun e => e.hasInitialize)) = true)
    (h4 : ∀ c es, st.channelController.mkChannels c es = []) :
    (coreInitialize st (some cfg) exts).2 = some InitError.noChannelsAvailable ∧
    (coreInitialize st (some cfg) exts).1.isInitialized = false ∧
    getTransmissionControls (coreInitialize st (some cfg) exts).1 = [] ∧
    ∀ config2 exts2,
      (coreInitialize (coreInitialize st (some cfg) exts).1 config2 exts2).2 ≠
        some InitError.alreadyInitialized := by
  have hA : (coreInitialize st (some cfg) exts).2 = some InitError.noChannelsAvailable := by
    unfold coreInitialize
    rw [h1]
    dsimp only
    rw [if_neg (by simp), if_neg h2, if_neg (by rw [h3]; simp), h4]
    simp
  have hB : (coreInitialize st (some cfg) exts).1.isInitialized = false := by
    unfold coreInitialize
    rw [h1]
    dsimp only
    rw [if_neg (by simp), if_neg h2, if_neg (by rw [h3]; simp), h4]
    simp [h1]
  have hC : getTransmissionControls (coreInitialize st (some cfg) exts).1 = [] := by
    unfold getTransmissionControls coreInitialize
    rw [h1]
    dsimp only
    rw [if_neg (by simp), if_neg h2, if_neg (by rw [h3]; simp), h4]
    simp [h4]
  exact ⟨hA, hB, hC, fun config2 exts2 => coreInitialize_ne_already _ config2 exts2 hB⟩

/-- C3 witness: the zero-channel failure at a concrete run. -/
theorem c3_noChannels_witness :
    (coreInitialize (newAppInsightsCore ccZero) (some cfgGood) [pluginA]).2 =
        some InitError.noChannelsAvailable ∧
    (coreInitialize (newAppInsightsCore ccZero) (some cfgGood) [pluginA]).1.isInitialized = false ∧
    getTransmissionControls
        (coreInitialize (newAppInsightsCore ccZero) (some cfgGood) [pluginA]).1 = [] ∧
    ∀ config2 exts2,
      (coreInitialize
          (coreInitialize (newAppInsightsCore ccZero) (some cfgGood) [pluginA]).1
          config2 exts2).2 ≠
        some InitError.alreadyInitialized :=
  c3_noChannels _ _ _ rfl (by decide) (by decide) (fun _ _ => rfl)

/-- C4: validation and default-filling in `track`.  For any non-null item on
an initialized core (configuration present with a non-null key): if, after
default-filling, the name is absent, `track` raises the corresponding
missing-field error, preceded by an InvalidEvent discard notification carrying
the filled item; likewise for an absent timestamp and an absent
instrumentation key (checked in that order); and an item carrying only a name
and a non-empty instrumentation key is accepted, auto-stamped with the current
timestamp and schema version "4.0", and handed to the dispatch plugin. -/
theorem c4_trackValidation (st : AppInsightsCore) (cfg : Config) (ck : String) (now : String)
    (hcfg : st.config = some cfg) (hk : cfg.instrumentationKey = some ck) :
    (∀ t : TelemetryItem,
        (fillDefaults (some ck) now t).name = none →
        track st (some t) now =
          (eventsDiscarded st.notificationManager [some (fillDefaults (some ck) now t)]
              EventsDiscardedReason.invalidEvent,
            Except.error TrackError.nameRequired)) ∧
    (∀ t : TelemetryItem,
        ¬((fillDefaults (some ck) now t).name = none) →
        (fillDefaults (some ck) now t).time = none →
        track st (some t) now =
          (eventsDiscarded st.notificationManager [some (fillDefaults (some ck) now t)]
              EventsDiscardedReason.invalidEvent,
            Except.error TrackError.timeRequired)) ∧
    (∀ t : TelemetryItem,
        ¬((fillDefaults (some ck) now t).name = none) →
        ¬((fillDefaults (some ck) now t).time = none) →
        (fillDefaults (some ck) now t).iKey = none →
        track st (some t) now =
          (eventsDiscarded st.notificationManager [some (fillDefaults (some ck) now t)]
              EventsDiscardedReason.invalidEvent,
            Except.error TrackError.iKeyRequired)) ∧
    (∀ n k : String, ¬(k = "") →
        track st (some (TelemetryItem.mk (some n) (some k) none none none none)) now =
          ([], Except.ok
            (TelemetryItem.mk (some n) (some k) (some now) (some "4.0") none none,
              st.extensions.find? (fun e => e.hasProcessTelemetry)))) := by
  have hbind : st.config.bind (fun c => c.instrumentationKey) = some ck := by
    rw [hcfg]; simpa using hk
  refine ⟨?_, ?_, ?_, ?_⟩
  · intro t hname
    unfold track
    rw [hbind]
    dsimp only
    unfold validateTelmetryItem
    rw [if_pos hname]
  · intro t hname htime
    unfold track
    rw [hbind]
    dsimp only
    unfold validateTelmetryItem
    rw [if_neg hname, if_pos htime]
  · intro t hname htime hkey
    unfold track
    rw [hbind]
    dsimp only
    unfold validateTelmetryItem
    rw [if_neg hname, if_neg htime, if_pos hkey]
  · intro n k hk'
    unfold track
    rw [hbind]
    dsimp only
    have hfill : fillDefaults (some ck) now (TelemetryItem.mk (some n) (some k) none none none none) =
        TelemetryItem.mk (some n) (some k) (some now) (some "4.0") none none := by
      unfold fillDefaults falsyString
      simp [hk']
    rw [hfill]
    unfold validateTelmetryItem
    simp

/-- C4 witness: the name-missing rejection and the acceptance path at
concrete items. -/
theorem c4_trackValidation_witness :
    (∀ t : TelemetryItem,
        (fillDefaults (some "ikey") "2020-01-01T00:00:00.000Z" t).name = none →
        track { newAppInsightsCore ccOne with config := some cfgGood } (some t)
            "2020-01-01T00:00:00.000Z" =
          (eventsDiscarded { newAppInsightsCore ccOne with config := some cfgGood }.notificationManager
              [some (fillDefaults (some "ikey") "2020-01-01T00:00:00.000Z" t)]
              EventsDiscardedReason.invalidEvent,
            Except.error TrackError.nameRequired)) ∧
    (∀ t : TelemetryItem,
        ¬((fillDefaults (some "ikey") "2020-01-01T00:00:00.000Z" t).name = none) →
        (fillDefaults (some "ikey") "2020-01-01T00:00:00.000Z" t).time = none →
        track { newAppInsightsCore ccOne with config := some cfgGood } (some t)
            "2020-01-01T00:00:00.000Z" =
          (eventsDiscarded { newAppInsightsCore ccOne with config := some cfgGood }.notificationManager
              [some (fillDefaults (some "ikey") "2020-01-01T00:00:00.000Z" t)]
              EventsDiscardedReason.invalidEvent,
            Except.error TrackError.timeRequired)) ∧
    (∀ t : TelemetryItem,
        ¬((fillDefaults (some "ikey") "2020-01-01T00:00:00.000Z" t).name = none) →
        ¬((fillDefaults (some "ikey") "2020-01-01T00:00:00.000Z" t).time = none) →
        (fillDefaults (some "ikey") "2020-01-01T00:00:00.000Z" t).iKey = none →
        track { newAppInsightsCore ccOne with config := some cfgGood } (some t)
            "2020-01-01T00:00:00.000Z" =
          (eventsDiscarded { newAppInsightsCore ccOne with config := some cfgGood }.notificationManager
              [some (fillDefaults (some "ikey") "2020-01-01T00:00:00.000Z" t)]
              EventsDiscardedReason.invalidEvent,
            Except.error TrackError.iKeyRequired)) ∧
    (∀ n k : String, ¬(k = "") →
        track { newAppInsightsCore ccOne with config := some cfgGood }
            (some (TelemetryItem.mk (some n) (some k) none none none none))
            "2020-01-01T00:00:00.000Z" =
          ([], Except.ok
            (TelemetryItem.mk (some n) (some k) (some "2020-01-01T00:00:00.000Z")
                (some "4.0") none none,
              { newAppInsightsCore ccOne with config := some cfgGood }.extensions.find?
                (fun e => e.hasProcessTelemetry)))) :=
  c4_trackValidation _ _ _ _ rfl rfl

/-- C7 counterexample: the claim says any two processing plugins with equal
priority make `initialize` log a collision warning.  The scan guards its
bookkeeping with the JS truthiness test `if (t && t.priority)`, so two
plugins sharing priority 0 are skipped entirely: this concrete run completes
with no error and an empty warning list. -/
theorem c7_zeroPriorityNoWarning :
    (coreInitialize (newAppInsightsCore ccOne) (some cfgGood)
        [IPlugin.mk "X" true true (some 0),
          IPlugin.mk "Y" true true (some 0)]).1.consoleWarnings = [] ∧
    (coreInitialize (newAppInsightsCore ccOne) (some cfgGood)
        [IPlugin.mk "X" true true (some 0),
          IPlugin.mk "Y" true true (some 0)]).2 = none := by
  constructor
  · rfl
  · rfl

/-- C8 counterexample: the claim says a message appended to the queue during
the drain is retained for the next flush cycle.  The flush ends with
`queue.length = 0`, truncating the whole array: with one message present at
flush start and one appended during the drain, the queue left behind is
empty - the appended message is lost, not retained. -/
theorem c8_appendedLost :
    (pollInternalLogsFlush cfgGood "T" [msgFirst] [msgSecond]).1 =
      [logMessageToTelemetryItem cfgGood "T" msgFirst] ∧
    (pollInternalLogsFlush cfgGood "T" [msgFirst] [msgSecond]).2 = [] ∧
    ¬((pollInternalLogsFlush cfgGood "T" [msgFirst] [msgSecond]).2 = [msgSecond]) := by
  refine ⟨rfl, rfl, by decide⟩

/-- C8 amended: a non-positive configured interval (0 included, and an absent
value) selects the default 10000 ms flush period; one flush converts exactly
the messages present in the queue at flush start into synthetic items (name
embedding the message id, internal-log base type, message text as base data)
submitted through `track`; messages appended during the drain are not
processed in the current flush, and the trailing `queue.length = 0` leaves
the queue empty, discarding them rather than retaining them for the next
cycle. -/
theorem c8_flushBehaviour (cfg : Config) (now : String)
    (queueAtStart appendedDuringDrain : List InternalLogMessage) :
    (∀ i : Int, cfg.diagnosticLogInterval = some i → i ≤ 0 →
        pollInternalLogsInterval cfg = 10000) ∧
    (cfg.diagnosticLogInterval = none → pollInternalLogsInterval cfg = 10000) ∧
    (pollInternalLogsFlush cfg now queueAtStart appendedDuringDrain).1 =
      queueAtStart.map (logMessageToTelemetryItem cfg now) ∧
    (∀ m : InternalLogMessage,
        logMessageToTelemetryItem cfg now m = TelemetryItem.mk
          (some ("InternalMessageId: " ++ toString m.messageId)) cfg.instrumentationKey
          (some now) none (some internalLogDataType) (some m.message)) ∧
    (pollInternalLogsFlush cfg now queueAtStart appendedDuringDrain).2 = [] := by
  refine ⟨?_, ?_, rfl, fun m => rfl, rfl⟩
  · intro i hi hle
    unfold pollInternalLogsInterval
    rw [hi]
    dsimp only
    rw [if_neg (by omega)]
  · intro hnone
    unfold pollInternalLogsInterval
    rw [hnone]

/-- C8 witness: the default interval for a configured value of 0 and one
concrete flush. -/
theorem c8_flushBehaviour_witness :
    pollInternalLogsInterval (Config.mk (some "k") none (some 0)) = 10000 ∧
    (pollInternalLogsFlush cfgGood "T" [msgFirst] []).1 =
      [msgFirst].map (logMessageToTelemetryItem cfgGood "T") ∧
    (pollInternalLogsFlush cfgGood "T" [msgFirst] []).2 = [] :=
  ⟨(c8_flushBehaviour (Config.mk (some "k") none (some 0)) "T" [] []).1 0 rfl (le_refl 0),
    (c8_flushBehaviour cfgGood "T" [msgFirst] []).2.2.1,
    (c8_flushBehaviour cfgGood "T" [msgFirst] []).2.2.2.2⟩

/-- The sort comparator is antisymmetric as a JS comparator should be:
swapping the arguments negates the result. -/
lemma pluginSortCompare_neg (a b : IPlugin) :
    pluginSortCompare b a = -pluginSortCompare a b := by
  unfold pluginSortCompare
  cases ha : a.hasProcessTelemetry <;> cases hb : b.hasProcessTelemetry <;>
    cases hpa : a.priority <;> cases hpb : b.priority <;> simp

/-- The induced order is total. -/
lemma pluginLe_total (a b : IPlugin) : pluginLe a b ∨ pluginLe b a := by
  unfold pluginLe
  rw [pluginSortCompare_neg]
  omega

/-- Between two processing plugins that carry priorities, the comparator
order is exactly the numeric priority order. -/
lemma pluginLe_iff_pVal (a b : IPlugin)
    (ha : a.hasProcessTelemetry = true) (hb : b.hasProcessTelemetry = true)
    (hpa : ¬(a.priority = none)) (hpb : ¬(b.priority = none)) :
    (pluginLe a b ↔ pVal a ≤ pVal b) := by
  rcases Option.ne_none_iff_exists'.mp hpa with ⟨pa, hA⟩
  rcases Option.ne_none_iff_exists'.mp hpb with ⟨pb, hB⟩
  unfold pluginLe pluginSortCompare pVal
  rw [ha, hb, hA, hB]
  simp

/-- The comparator order is transitive on processing plugins that carry
priorities. -/
lemma pluginLe_trans_proc (a b c : IPlugin)
    (ha : a.hasProcessTelemetry = true ∧ ¬(a.priority = none))
    (hb : b.hasProcessTelemetry = true ∧ ¬(b.priority = none))
    (hc : c.hasProcessTelemetry = true ∧ ¬(c.priority = none))
    (hab : pluginLe a b) (hbc : pluginLe b c) : pluginLe a c := by
  rw [pluginLe_iff_pVal a b ha.1 hb.1 ha.2 hb.2] at hab
  rw [pluginLe_iff_pVal b c hb.1 hc.1 hb.2 hc.2] at hbc
  rw [pluginLe_iff_pVal a c ha.1 hc.1 ha.2 hc.2]
  omega

/-- Inserting a processing plugin into a comparator-sorted list of processing
plugins keeps the list sorted. -/
lemma pairwise_orderedInsert (a : IPlugin) (l : List IPlugin)
    (ha : a.hasProcessTelemetry = true ∧ ¬(a.priority = none))
    (hl : ∀ x ∈ l, x.hasProcessTelemetry = true ∧ ¬(x.priority = none))
    (hp : l.Pairwise pluginLe) :
    (List.orderedInsert pluginLe a l).Pairwise pluginLe := by
  induction l with
  | nil => simp
  | cons b t ih =>
    rw [List.pairwise_cons] at hp
    by_cases hab : pluginLe a b
    · simp only [List.orderedInsert, if_pos hab]
      refine List.Pairwise.cons ?_ (List.Pairwise.cons hp.1 hp.2)
      intro x hx
      rcases List.mem_cons.mp hx with rfl | hx'
      · exact hab
      · exact pluginLe_trans_proc a b x ha (hl b (by simp)) (hl x (by simp [hx']))
          hab (hp.1 x hx')
    · simp only [List.orderedInsert, if_neg hab]
      have hba : pluginLe b a := (pluginLe_total a b).resolve_left hab
      refine List.Pairwise.cons ?_ (ih (fun x hx => hl x (by simp [hx])) hp.2)
      intro x hx
      rcases (List.mem_orderedInsert pluginLe).mp hx with rfl | hx'
      · exact hba
      · exact hp.1 x hx'

/-- The insertion sort of a list of processing plugins carrying priorities is
sorted under the comparator order. -/
lemma pairwise_insertionSort_proc (l : List IPlugin)
    (hl : ∀ x ∈ l, x.hasProcessTelemetry = true ∧ ¬(x.priority = none)) :
    (List.insertionSort pluginLe l).Pairwise pluginLe := by
  induction l with
  | nil => simp
  | cons a t ih =>
    simp only [List.insertionSort]
    refine pairwise_orderedInsert a _ (hl a (by simp)) ?_
      (ih (fun x hx => hl x (by simp [hx])))
    intro x hx
    have hx' : x ∈ t := (List.perm_insertionSort pluginLe t).mem_iff.mp hx
    exact hl x (by simp [hx'])

/-- With pairwise-distinct priorities, comparator-sortedness upgrades to a
strictly increasing priority chain. -/
lemma pairwise_lt_of_pairwise_le (s : List IPlugin)
    (hall : ∀ x ∈ s, x.hasProcessTelemetry = true ∧ ¬(x.priority = none))
    (hle : s.Pairwise pluginLe)
    (hnd : (s.map pVal).Nodup) :
    s.Pairwise (fun x y => pVal x < pVal y) := by
  have hne : s.Pairwise (fun x y => pVal x ≠ pVal y) := List.pairwise_map.mp hnd
  refine (hle.and hne).imp_of_mem ?_
  intro x y hx hy hxy
  exact lt_of_le_of_ne
    ((pluginLe_iff_pVal x y (hall x hx).1 (hall y hy).1 (hall x hx).2 (hall y hy).2).mp hxy.1)
    hxy.2

/-- A plugin whose priority field differs from `some ccP` has `pVal` distinct
from `ccP` (when the field is present). -/
lemma pVal_ne_of_priority_ne (a : IPlugin) (ccP : Int)
    (hs : ¬(a.priority = none)) (hne : ¬(a.priority = some ccP)) :
    ¬(pVal a = ccP) := by
  rcases Option.ne_none_iff_exists'.mp hs with ⟨pa, hA⟩
  intro hEq
  apply hne
  rw [hA]
  unfold pVal at hEq
  rw [hA] at hEq
  simp at hEq
  rw [hEq]

/-- Both components of every recorded wiring call come from the walked list. -/
lemma setNextLoop_mem (ccP : Int) :
    ∀ (l : List IPlugin), ∀ pr ∈ setNextLoop ccP l, pr.1 ∈ l ∧ pr.2 ∈ l := by
  intro l
  induction l with
  | nil => intro pr h; simp [setNextLoop] at h
  | cons a t ih =>
    cases t with
    | nil => intro pr h; simp [setNextLoop] at h
    | cons b r =>
      intro pr h
      unfold setNextLoop at h
      by_cases hpt : a.hasProcessTelemetry = false
      · rw [if_pos hpt] at h
        have hm := ih pr h
        exact ⟨List.mem_cons_of_mem a hm.1, List.mem_cons_of_mem a hm.2⟩
      · rw [if_neg hpt] at h
        by_cases hcc : a.priority = some ccP
        · rw [if_pos hcc] at h; simp at h
        · rw [if_neg hcc] at h
          rcases List.mem_cons.mp h with rfl | hmem
          · exact ⟨List.mem_cons_self _ _,
              List.mem_cons_of_mem _ (List.mem_cons_self _ _)⟩
          · have hm := ih pr hmem
            exact ⟨List.mem_cons_of_mem a hm.1, List.mem_cons_of_mem a hm.2⟩

/-- Over an all-processing, strictly priority-sorted list containing the
channel controller's priority, every plugin strictly below that priority
receives exactly one wiring call, and its recorded successor is the next
element - the one of smallest priority above its own. -/
lemma setNextLoop_succ_below (ccP : Int) :
    ∀ (s : List IPlugin),
      (∀ x ∈ s, x.hasProcessTelemetry = true) →
      (∀ x ∈ s, ¬(x.priority = none)) →
      s.Pairwise (fun x y => pVal x < pVal y) →
      (∃ c ∈ s, pVal c = ccP) →
      ∀ q ∈ s, pVal q < ccP →
        ∃ r, (setNextLoop ccP s).filter (fun pr => decide (pr.1 = q)) = [(q, r)] ∧
          r ∈ s ∧ pVal q < pVal r ∧ ∀ x ∈ s, pVal q < pVal x → pVal r ≤ pVal x := by
  intro s
  induction s with
  | nil => intro _ _ _ _ q hq; simp at hq
  | cons a t ih =>
    intro hproc hsome hlt hcc q hq hqcc
    cases t with
    | nil =>
      exfalso
      have hqa : q = a := by simpa using hq
      rcases hcc with ⟨c, hc, hcp⟩
      have hca : c = a := by simpa using hc
      rw [hqa] at hqcc
      rw [hca] at hcp
      omega
    | cons b r =>
      have hproc_a : a.hasProcessTelemetry = true := hproc a (by simp)
      unfold setNextLoop
      rw [if_neg (by simp [hproc_a])]
      by_cases hacc : a.priority = some ccP
      · exfalso
        have hpa : pVal a = ccP := by simp [pVal, hacc]
        rcases List.mem_cons.mp hq with rfl | hmem
        · omega
        · have hlt' := (List.pairwise_cons.mp hlt).1 q hmem
          omega
      · rw [if_neg hacc]
        have hpa_ne : ¬(pVal a = ccP) :=
          pVal_ne_of_priority_ne a ccP (hsome a (by simp)) hacc
        have hcc' : ∃ c ∈ b :: r, pVal c = ccP := by
          rcases hcc with ⟨c, hc, hcp⟩
          rcases List.mem_cons.mp hc with rfl | hcm
          · exact absurd hcp hpa_ne
          · exact ⟨c, hcm, hcp⟩
        rcases List.mem_cons.mp hq with rfl | hmem
        · have hfil_rest :
              (setNextLoop ccP (b :: r)).filter (fun pr => decide (pr.1 = q)) = [] := by
            rw [List.filter_eq_nil_iff]
            intro pr hpr
            have hm := setNextLoop_mem ccP (b :: r) pr hpr
            have hlt' := (List.pairwise_cons.mp hlt).1 pr.1 hm.1
            simp only [decide_eq_true_eq]
            intro hEq
            rw [hEq] at hlt'
            omega
          refine ⟨b, ?_, List.mem_cons_of_mem _ (List.mem_cons_self _ _), ?_, ?_⟩
          · rw [List.filter_cons_of_pos (by simp), hfil_rest]
          · exact (List.pairwise_cons.mp hlt).1 b (by simp)
          · intro x hx hax
            rcases List.mem_cons.mp hx with rfl | hxm
            · omega
            · rcases List.mem_cons.mp hxm with rfl | hxr
              · exact le_refl _
              · have hbx := (List.pairwise_cons.mp (List.pairwise_cons.mp hlt).2).1 x hxr
                omega
        · have hlt_aq := (List.pairwise_cons.mp hlt).1 q hmem
          have haq : ¬((a, b).1 = q) := by
            simp only
            intro hEq
            rw [hEq] at hlt_aq
            omega
          rw [List.filter_cons_of_neg (by simpa using haq)]
          have ih' := ih (fun x hx => hproc x (List.mem_cons_of_mem a hx))
            (fun x hx => hsome x (List.mem_cons_of_mem a hx))
            (List.pairwise_cons.mp hlt).2 hcc' q hmem hqcc
          rcases ih' with ⟨r', hfil, hm, hlt', hleast⟩
          refine ⟨r', hfil, List.mem_cons_of_mem _ hm, hlt', ?_⟩
          intro x hx hqx
          rcases List.mem_cons.mp hx with rfl | hxm
          · omega
          · exact hleast x hxm hqx

/-- Over the same kind of list, a plugin whose priority lies strictly above
the channel controller's never appears as the caller of a wiring call: the
loop breaks at the controller's position before reaching it. -/
lemma setNextLoop_none_above (ccP : Int) :
    ∀ (s : List IPlugin),
      (∀ x ∈ s, x.hasProcessTelemetry = true) →
      (∀ x ∈ s, ¬(x.priority = none)) →
      s.Pairwise (fun x y => pVal x < pVal y) →
      (∃ c ∈ s, pVal c = ccP) →
      ∀ q, ccP < pVal q → ∀ pr ∈ setNextLoop ccP s, pr.1 ≠ q := by
  intro s
  induction s with
  | nil => intro _ _ _ _ q hq pr hpr; simp [setNextLoop] at hpr
  | cons a t ih =>
    intro hproc hsome hlt hcc q hq pr hpr
    cases t with
    | nil => simp [setNextLoop] at hpr
    | cons b r =>
      unfold setNextLoop at hpr
      rw [if_neg (by simp [hproc a (by simp)])] at hpr
      by_cases hacc : a.priority = some ccP
      · rw [if_pos hacc] at hpr; simp at hpr
      · rw [if_neg hacc] at hpr
        have hpa_ne : ¬(pVal a = ccP) :=
          pVal_ne_of_priority_ne a ccP (hsome a (by simp)) hacc
        have hcc' : ∃ c ∈ b :: r, pVal c = ccP := by
          rcases hcc with ⟨c, hc, hcp⟩
          rcases List.mem_cons.mp hc with rfl | hcm
          · exact absurd hcp hpa_ne
          · exact ⟨c, hcm, hcp⟩
        rcases List.mem_cons.mp hpr with rfl | hmem
        · rcases hcc' with ⟨c, hcm, hcp⟩
          have hac := (List.pairwise_cons.mp hlt).1 c hcm
          simp only
          intro hEq
          rw [← hEq] at hq
          omega
        · exact ih (fun x hx => hproc x (List.mem_cons_of_mem a hx))
            (fun x hx => hsome x (List.mem_cons_of_mem a hx))
            (List.pairwise_cons.mp hlt).2 hcc' q hq pr hmem

/-- On a fresh core with a valid configuration carrying no configured plugins
and an input list passing validation, `coreInitialize` stores the sorted
pipeline, records the wiring loop's calls over it, and normalizes the
configuration - whether or not the channel check then fails. -/
lemma coreInitialize_success_fields (st : AppInsightsCore) (cfg : Config)
    (plugins : List IPlugin)
    (h1 : st.isInitialized = false)
    (h2 : st.extensions = [])
    (h3 : ¬(cfg.instrumentationKey = none))
    (h4 : (cfg.extensions).getD [] = [])
    (h5 : (plugins.all (fun e => e.hasInitialize)) = true) :
    (coreInitialize st (some cfg) plugins).1.extensions =
      List.insertionSort pluginLe (plugins ++ [channelPlugin st.channelController]) ∧
    (coreInitialize st (some cfg) plugins).1.setNextCalls =
      setNextLoop st.channelController.priority
        (List.insertionSort pluginLe (plugins ++ [channelPlugin st.channelController])) ∧
    (coreInitialize st (some cfg) plugins).1.config =
      some { cfg with extensions := some [] } := by
  unfold coreInitialize
  rw [h1]
  dsimp only
  rw [if_neg (by simp), if_neg h3, h2, h4]
  simp only [List.nil_append, List.append_nil]
  rw [if_neg (by rw [h5]; simp)]
  split <;> exact ⟨rfl, rfl, rfl⟩

/-- C1: for processing plugins with pairwise-distinct priorities (distinct
also from the channel controller's), after `initialize` each plugin below the
controller's priority has received exactly one `setNextPlugin` call carrying
the pipeline element of next-higher priority; plugins above the controller's
priority received none (the wiring stops at the controller's position); and
`track` dispatches to the plugin of lowest priority - which lies below the
controller's priority - and to no other plugin. -/
theorem c1_pipelineOrder (st : AppInsightsCore) (cfg : Config) (plugins : List IPlugin)
    (h1 : st.isInitialized = false)
    (h2 : st.extensions = [])
    (h3 : ¬(cfg.instrumentationKey = none))
    (h4 : (cfg.extensions).getD [] = [])
    (hproc : ∀ x ∈ plugins,
        x.hasProcessTelemetry = true ∧ x.hasInitialize = true ∧ ¬(x.priority = none))
    (hnd : ((plugins ++ [channelPlugin st.channelController]).map pVal).Nodup)
    (hbelow : ∃ x ∈ plugins, pVal x < st.channelController.priority) :
    C1Post (coreInitialize st (some cfg) plugins).1 plugins
      (plugins ++ [channelPlugin st.channelController])
      st.channelController.priority := by
  have hval : plugins.all (fun e => e.hasInitialize) = true := by
    rw [List.all_eq_true]
    intro x hx
    exact (hproc x hx).2.1
  obtain ⟨hext, hcalls, hcfg'⟩ :=
    coreInitialize_success_fields st cfg plugins h1 h2 h3 h4 hval
  have hperm :
      List.Perm
        (List.insertionSort pluginLe (plugins ++ [channelPlugin st.channelController]))
        (plugins ++ [channelPlugin st.channelController]) :=
    List.perm_insertionSort pluginLe _
  have hall_proc : ∀ x ∈ plugins ++ [channelPlugin st.channelController],
      x.hasProcessTelemetry = true ∧ ¬(x.priority = none) := by
    intro x hx
    rcases List.mem_append.mp hx with hx1 | hx2
    · exact ⟨(hproc x hx1).1, (hproc x hx1).2.2⟩
    · have hxc : x = channelPlugin st.channelController := by simpa using hx2
      rw [hxc]
      exact ⟨rfl, by simp [channelPlugin]⟩
  have hs_proc : ∀ x ∈
      List.insertionSort pluginLe (plugins ++ [channelPlugin st.channelController]),
      x.hasProcessTelemetry = true ∧ ¬(x.priority = none) :=
    fun x hx => hall_proc x (hperm.mem_iff.mp hx)
  have hs_pairle := pairwise_insertionSort_proc _ hall_proc
  have hs_nodup :
      ((List.insertionSort pluginLe
        (plugins ++ [channelPlugin st.channelController])).map pVal).Nodup :=
    ((hperm.map pVal).nodup_iff).mpr hnd
  have hs_lt := pairwise_lt_of_pairwise_le _ hs_proc hs_pairle hs_nodup
  have hcc_pval : pVal (channelPlugin st.channelController) =
      st.channelController.priority := by
    simp [pVal, channelPlugin]
  have hcc_mem : channelPlugin st.channelController ∈
      List.insertionSort pluginLe (plugins ++ [channelPlugin st.channelController]) :=
    hperm.mem_iff.mpr (by simp)
  have hcc_ex : ∃ c ∈
      List.insertionSort pluginLe (plugins ++ [channelPlugin st.channelController]),
      pVal c = st.channelController.priority :=
    ⟨channelPlugin st.channelController, hcc_mem, hcc_pval⟩
  refine ⟨?_, ?_, ?_⟩
  · intro q hq hqcc
    have hq_s : q ∈
        List.insertionSort pluginLe (plugins ++ [channelPlugin st.channelController]) :=
      hperm.mem_iff.mpr (List.mem_append_left _ hq)
    obtain ⟨r, hfil, hmem, hltr, hleast⟩ :=
      setNextLoop_succ_below st.channelController.priority _
        (fun x hx => (hs_proc x hx).1) (fun x hx => (hs_proc x hx).2)
        hs_lt hcc_ex q hq_s hqcc
    refine ⟨r, ?_, hperm.mem_iff.mp hmem, hltr, ?_⟩
    · rw [hcalls]; exact hfil
    · intro x hx hqx
      exact hleast x (hperm.mem_iff.mpr hx) hqx
  · intro q hq hqcc pr hpr
    rw [hcalls] at hpr
    exact setNextLoop_none_above st.channelController.priority _
      (fun x hx => (hs_proc x hx).1) (fun x hx => (hs_proc x hx).2)
      hs_lt hcc_ex q hqcc pr hpr
  · have hs_ne :
        List.insertionSort pluginLe (plugins ++ [channelPlugin st.channelController]) ≠ [] := by
      intro hnil
      rw [hnil] at hcc_mem
      simp at hcc_mem
    obtain ⟨q0, t0, hs_eq⟩ := List.exists_cons_of_ne_nil hs_ne
    have hq0_mem : q0 ∈
        List.insertionSort pluginLe (plugins ++ [channelPlugin st.channelController]) := by
      rw [hs_eq]; simp
    have hq0_proc : q0.hasProcessTelemetry = true := (hs_proc q0 hq0_mem).1
    have hfind :
        (List.insertionSort pluginLe
          (plugins ++ [channelPlugin st.channelController])).find?
          (fun e => e.hasProcessTelemetry) = some q0 := by
      rw [hs_eq]
      exact List.find?_cons_of_pos _ hq0_proc
    have hq0_min : ∀ x ∈
        List.insertionSort pluginLe (plugins ++ [channelPlugin st.channelController]),
        pVal q0 ≤ pVal x := by
      intro x hx
      rw [hs_eq] at hx
      rcases List.mem_cons.mp hx with rfl | hxm
      · exact le_refl _
      · exact le_of_lt ((List.pairwise_cons.mp (hs_eq ▸ hs_lt)).1 x hxm)
    have hq0_cc : pVal q0 < st.channelController.priority := by
      rcases hbelow with ⟨x, hx, hxcc⟩
      have hle := hq0_min x (hperm.mem_iff.mpr (List.mem_append_left _ hx))
      omega
    have hq0_plugins : q0 ∈ plugins := by
      have hq0_all : q0 ∈ plugins ++ [channelPlugin st.channelController] :=
        hperm.mem_iff.mp hq0_mem
      rcases List.mem_append.mp hq0_all with h | h
      · exact h
      · exfalso
        have hq0c : q0 = channelPlugin st.channelController := by simpa using h
        rw [hq0c, hcc_pval] at hq0_cc
        omega
    refine ⟨q0, ?_, hq0_plugins, hq0_cc, ?_, ?_, ?_⟩
    · rw [hext]; exact hfind
    · intro x hx hxcc
      exact hq0_min x (hperm.mem_iff.mpr (List.mem_append_left _ hx))
    · intro t now notifs it d htr
      have hd := track_ok_dispatch _ _ _ _ _ _ htr
      rw [hd, hext, hfind]
    · intro n k now hk'
      rcases Option.ne_none_iff_exists'.mp h3 with ⟨ck, hck⟩
      have hbind : (coreInitialize st (some cfg) plugins).1.config.bind
          (fun c => c.instrumentationKey) = some ck := by
        rw [hcfg']
        simpa using hck
      unfold track
      rw [hbind]
      dsimp only
      have hfill : fillDefaults (some ck) now
          (TelemetryItem.mk (some n) (some k) none none none none) =
          TelemetryItem.mk (some n) (some k) (some now) (some "4.0") none none := by
        unfold fillDefaults falsyString
        simp [hk']
      rw [hfill]
      unfold validateTelmetryItem
      simp only [reduceCtorEq, if_false]
      rw [hext, hfind]

/-- C1 witness: the pipeline ordering property at a concrete run with two
processing plugins of priorities 7 and 3 (given out of order) and the
channel controller at priority 500. -/
theorem c1_pipelineOrder_witness :
    C1Post (coreInitialize (newAppInsightsCore ccOne) (some cfgGood)
        [pluginB, pluginA]).1
      [pluginB, pluginA]
      ([pluginB, pluginA] ++ [channelPlugin (newAppInsightsCore ccOne).channelController])
      (newAppInsightsCore ccOne).channelController.priority :=
  c1_pipelineOrder _ _ _ rfl rfl (by decide) rfl (by decide) (by decide) (by decide)

/-- Filtering with a stronger predicate never yields a longer list. -/
lemma length_filter_le_of_imp (l : List IPlugin) (q r : IPlugin → Bool)
    (h : ∀ x, q x = true → r x = true) :
    (l.filter q).length ≤ (l.filter r).length := by
  induction l with
  | nil => simp
  | cons a t ih =>
    by_cases hq : q a = true
    · rw [List.filter_cons_of_pos hq, List.filter_cons_of_pos (h a hq)]
      simpa using ih
    · rw [List.filter_cons_of_neg (by simpa using hq)]
      by_cases hr : r a = true
      · rw [List.filter_cons_of_pos hr]
        exact le_trans ih (by simp)
      · rw [List.filter_cons_of_neg (by simpa using hr)]
        exact ih

/-- Appending entries to an association list does not change a lookup that
already succeeds. -/
lemma lookup_append_of_some (l1 l2 : List (Int × String)) (q : Int) (s : String)
    (h : l1.lookup q = some s) : (l1 ++ l2).lookup q = some s := by
  induction l1 with
  | nil => simp [List.lookup] at h
  | cons a t ih =>
    cases a with
    | mk k v =>
      rw [List.cons_append]
      by_cases hk : (q == k) = true
      · simp only [List.lookup, hk] at h ⊢
        exact h
      · rw [Bool.not_eq_true] at hk
        simp only [List.lookup, hk] at h ⊢
        exact ih h

/-- A lookup that fails on the first part of an appended association list
falls through to the second part. -/
lemma lookup_append_of_none (l1 l2 : List (Int × String)) (q : Int)
    (h : l1.lookup q = none) : (l1 ++ l2).lookup q = l2.lookup q := by
  induction l1 with
  | nil => simp
  | cons a t ih =>
    cases a with
    | mk k v =>
      rw [List.cons_append]
      by_cases hk : (q == k) = true
      · simp only [List.lookup, hk] at h
        simp at h
      · rw [Bool.not_eq_true] at hk
        simp only [List.lookup, hk] at h ⊢
        exact ih h

/-- One scan step preserves a recorded first-seen identifier: the bookkeeping
object is only ever extended, never overwritten. -/
lemma dupPriorityStep_lookup_some (acc : List (Int × String) × List String)
    (x : IPlugin) (p : Int) (s : String)
    (h : acc.1.lookup p = some s) :
    ((dupPriorityStep acc x).1).lookup p = some s := by
  unfold dupPriorityStep
  split
  · split
    · split
      · exact h
      · exact lookup_append_of_some _ _ _ _ h
    · exact h
  · exact h

/-- One scan step over an element whose priority is not `some p` cannot
record a first-seen identifier for `p`. -/
lemma dupPriorityStep_lookup_none (acc : List (Int × String) × List String)
    (x : IPlugin) (p : Int)
    (h : acc.1.lookup p = none) (hx : ¬(x.priority = some p)) :
    ((dupPriorityStep acc x).1).lookup p = none := by
  unfold dupPriorityStep
  split
  · rename_i q hq
    split
    · split
      · exact h
      · rw [lookup_append_of_none _ _ _ h]
        have hqp : (p == q) = false := by
          simp only [beq_eq_false_iff_ne, ne_eq]
          intro hEq
          exact hx (by rw [hq, hEq])
        simp [List.lookup, hqp]
    · exact h
  · exact h

/-- Warnings already written to the console survive the rest of the scan: the
fold only appends to the warning list. -/
lemma foldl_dupPriorityStep_warnings_mono :
    ∀ (l : List IPlugin) (acc : List (Int × String) × List String) (w : String),
      w ∈ acc.2 → w ∈ (l.foldl dupPriorityStep acc).2 := by
  intro l
  induction l with
  | nil => intro acc w h; exact h
  | cons a t ih =>
    intro acc w h
    rw [List.foldl_cons]
    apply ih
    unfold dupPriorityStep
    split
    · split
      · split
        · exact List.mem_append_left _ h
        · exact h
      · exact h
    · exact h

/-- Once a first-seen identifier for a nonzero priority `p` is recorded, any
later element with priority `p` makes the scan log the collision warning
naming the recorded identifier and that element's identifier. -/
lemma foldl_dupPriorityStep_collision_seen :
    ∀ (l : List IPlugin) (acc : List (Int × String) × List String) (p : Int) (id0 : String),
      ¬(p = 0) → acc.1.lookup p = some id0 →
      (∃ v ∈ l, v.priority = some p) →
      ∃ collId,
        ("Two extensions have same priority" ++ id0 ++ ", " ++ collId) ∈
          (l.foldl dupPriorityStep acc).2 ∧
        ∃ v ∈ l, v.priority = some p ∧ v.identifier = collId := by
  intro l
  induction l with
  | nil => intro acc p id0 _ _ hex; simp at hex
  | cons a t ih =>
    intro acc p id0 hp0 hlook hex
    rw [List.foldl_cons]
    by_cases ha : a.priority = some p
    · refine ⟨a.identifier, ?_, ⟨a, by simp, ha, rfl⟩⟩
      apply foldl_dupPriorityStep_warnings_mono
      unfold dupPriorityStep
      rw [ha]
      dsimp only
      rw [if_pos hp0, hlook]
      exact List.mem_append_right _ (by simp)
    · have hex' : ∃ v ∈ t, v.priority = some p := by
        rcases hex with ⟨v, hv, hvp⟩
        rcases List.mem_cons.mp hv with rfl | hvm
        · exact absurd hvp ha
        · exact ⟨v, hvm, hvp⟩
      have hlook' := dupPriorityStep_lookup_some acc a p id0 hlook
      obtain ⟨collId, hmem, v, hvm, hvp, hvi⟩ :=
        ih (dupPriorityStep acc a) p id0 hp0 hlook' hex'
      exact ⟨collId, hmem, v, List.mem_cons_of_mem a hvm, hvp, hvi⟩

/-- Over any list containing at least two elements whose priority field is a
shared nonzero `p`, the scan logs a collision warning whose two identifiers
both belong to elements of the list carrying priority `p` (the first-seen one
and a later colliding one). -/
lemma foldl_dupPriorityStep_collision :
    ∀ (l : List IPlugin) (acc : List (Int × String) × List String) (p : Int),
      ¬(p = 0) → acc.1.lookup p = none →
      2 ≤ (l.filter (fun e => e.priority == some p)).length →
      ∃ prevId collId,
        ("Two extensions have same priority" ++ prevId ++ ", " ++ collId) ∈
          (l.foldl dupPriorityStep acc).2 ∧
        (∃ u ∈ l, u.priority = some p ∧ u.identifier = prevId) ∧
        (∃ v ∈ l, v.priority = some p ∧ v.identifier = collId) := by
  intro l
  induction l with
  | nil => intro acc p _ _ hcnt; simp at hcnt
  | cons a t ih =>
    intro acc p hp0 hlook hcnt
    rw [List.foldl_cons]
    by_cases ha : a.priority = some p
    · rw [List.filter_cons, ha] at hcnt
      simp only [beq_self_eq_true, if_true, List.length_cons] at hcnt
      have hne : t.filter (fun e => e.priority == some p) ≠ [] := by
        intro h0
        rw [h0] at hcnt
        simp at hcnt
      obtain ⟨v0, hv0⟩ := List.exists_mem_of_ne_nil _ hne
      have hv0' := List.mem_filter.mp hv0
      have hex : ∃ v ∈ t, v.priority = some p :=
        ⟨v0, hv0'.1, by simpa [beq_iff_eq] using hv0'.2⟩
      have hlook' : (dupPriorityStep acc a).1.lookup p = some a.identifier := by
        unfold dupPriorityStep
        rw [ha]
        dsimp only
        rw [if_pos hp0, hlook]
        dsimp only
        rw [lookup_append_of_none _ _ _ hlook]
        simp [List.lookup]
      obtain ⟨collId, hmem, v, hvm, hvp, hvi⟩ :=
        foldl_dupPriorityStep_collision_seen t (dupPriorityStep acc a) p
          a.identifier hp0 hlook' hex
      exact ⟨a.identifier, collId, hmem,
        ⟨a, List.mem_cons_self a t, ha, rfl⟩,
        ⟨v, List.mem_cons_of_mem a hvm, hvp, hvi⟩⟩
    · rw [List.filter_cons] at hcnt
      have hcond : ¬((a.priority == some p) = true) := by simpa [beq_iff_eq] using ha
      rw [if_neg hcond] at hcnt
      have hlook' := dupPriorityStep_lookup_none acc a p hlook ha
      obtain ⟨prevId, collId, hmem, ⟨u, hum, hup⟩, ⟨v, hvm, hvp⟩⟩ :=
        ih (dupPriorityStep acc a) p hp0 hlook' hcnt
      exact ⟨prevId, collId, hmem,
        ⟨u, List.mem_cons_of_mem a hum, hup⟩,
        ⟨v, List.mem_cons_of_mem a hvm, hvp⟩⟩

/-- The warning produced by the duplicate-priority scan, stated over the
scanned list itself. -/
lemma dupPriorityWarnings_collision (l : List IPlugin) (p : Int)
    (hp0 : ¬(p = 0))
    (hcnt : 2 ≤ (l.filter (fun e => e.priority == some p)).length) :
    ∃ prevId collId,
      ("Two extensions have same priority" ++ prevId ++ ", " ++ collId) ∈
        dupPriorityWarnings l ∧
      (∃ u ∈ l, u.priority = some p ∧ u.identifier = prevId) ∧
      (∃ v ∈ l, v.priority = some p ∧ v.identifier = collId) := by
  unfold dupPriorityWarnings
  exact foldl_dupPriorityStep_collision l ([], []) p hp0 rfl hcnt

/-- On a fresh-enough core with a valid configuration, a validated plugin
list and channels available, `coreInitialize` completes without error and its
console warnings are the previous warnings followed by the duplicate-priority
scan over the sorted pipeline. -/
lemma coreInitialize_no_error_warnings (st : AppInsightsCore) (cfg : Config)
    (exts : List IPlugin)
    (h1 : st.isInitialized = false)
    (h3 : ¬(cfg.instrumentationKey = none))
    (hval : ((st.extensions ++ exts ++ (cfg.extensions).getD []).all
        (fun e => e.hasInitialize)) = true)
    (hch : ∀ c es, ¬(st.channelController.mkChannels c es = [])) :
    (coreInitialize st (some cfg) exts).2 = none ∧
    (coreInitialize st (some cfg) exts).1.consoleWarnings =
      st.consoleWarnings ++ dupPriorityWarnings
        (List.insertionSort pluginLe
          ((st.extensions ++ exts ++ (cfg.extensions).getD []) ++
            [channelPlugin st.channelController])) := by
  unfold coreInitialize
  rw [h1]
  dsimp only
  rw [if_neg (by simp), if_neg h3, if_neg (by rw [hval]; simp)]
  rw [if_neg (by simpa [List.length_eq_zero] using hch _ _)]
  exact ⟨rfl, rfl⟩

/-- C7 amended: for every merged plugin list (supplied plus
configuration-supplied, at any positions) containing two processing plugins
with equal nonzero priority, `initialize` treats the collision as non-fatal:
with a valid configuration, validated plugins and channels available it
completes without error, and the console receives a collision warning whose
two identifiers - the previously seen one and the colliding one - both belong
to pipeline elements carrying that priority.  The nonzero qualification is
forced by the code's truthiness guard `if (t && t.priority)`, which skips a
priority of 0; no restriction relates the shared priority to the channel
controller's. -/
theorem c7_samePriorityWarns (st : AppInsightsCore) (cfg : Config)
    (exts : List IPlugin) (p : Int)
    (h1 : st.isInitialized = false)
    (h3 : ¬(cfg.instrumentationKey = none))
    (hval : ((st.extensions ++ exts ++ (cfg.extensions).getD []).all
        (fun e => e.hasInitialize)) = true)
    (hch : ∀ c es, ¬(st.channelController.mkChannels c es = []))
    (hp0 : ¬(p = 0))
    (hpair : 2 ≤ ((st.extensions ++ exts ++ (cfg.extensions).getD []).filter
        (fun e => e.hasProcessTelemetry && e.priority == some p)).length) :
    (coreInitialize st (some cfg) exts).2 = none ∧
    ∃ prevId collId,
      ("Two extensions have same priority" ++ prevId ++ ", " ++ collId) ∈
        (coreInitialize st (some cfg) exts).1.consoleWarnings ∧
      (∃ u ∈ (st.extensions ++ exts ++ (cfg.extensions).getD []) ++
          [channelPlugin st.channelController],
        u.priority = some p ∧ u.identifier = prevId) ∧
      (∃ v ∈ (st.extensions ++ exts ++ (cfg.extensions).getD []) ++
          [channelPlugin st.channelController],
        v.priority = some p ∧ v.identifier = collId) := by
  obtain ⟨herr, hwarn⟩ := coreInitialize_no_error_warnings st cfg exts h1 h3 hval hch
  refine ⟨herr, ?_⟩
  have hperm := List.perm_insertionSort pluginLe
    ((st.extensions ++ exts ++ (cfg.extensions).getD []) ++
      [channelPlugin st.channelController])
  have hcnt_merged : 2 ≤ ((st.extensions ++ exts ++ (cfg.extensions).getD []).filter
      (fun e => e.priority == some p)).length :=
    le_trans hpair (length_filter_le_of_imp _ _ _ (fun x hx => by
      simp only [Bool.and_eq_true] at hx
      exact hx.2))
  have hcnt_all : 2 ≤ (((st.extensions ++ exts ++ (cfg.extensions).getD []) ++
      [channelPlugin st.channelController]).filter
      (fun e => e.priority == some p)).length := by
    rw [List.filter_append, List.length_append]
    omega
  have hcnt_sorted : 2 ≤ ((List.insertionSort pluginLe
      ((st.extensions ++ exts ++ (cfg.extensions).getD []) ++
        [channelPlugin st.channelController])).filter
      (fun e => e.priority == some p)).length := by
    rw [(hperm.filter _).length_eq]
    exact hcnt_all
  obtain ⟨prevId, collId, hmem, ⟨u, hum, hup⟩, ⟨v, hvm, hvp⟩⟩ :=
    dupPriorityWarnings_collision _ p hp0 hcnt_sorted
  refine ⟨prevId, collId, ?_, ⟨u, hperm.mem_iff.mp hum, hup⟩,
    ⟨v, hperm.mem_iff.mp hvm, hvp⟩⟩
  rw [hwarn]
  exact List.mem_append_right _ hmem

/-- C7 witness: the amended collision property at a concrete run whose input
list holds a colliding pair of priority 7 plus an unrelated plugin of
priority 3. -/
theorem c7_samePriorityWarns_witness :
    (coreInitialize (newAppInsightsCore ccOne) (some cfgGood)
        [pluginB, IPlugin.mk "B2" true true (some 7), pluginA]).2 = none ∧
    ∃ prevId collId,
      ("Two extensions have same priority" ++ prevId ++ ", " ++ collId) ∈
        (coreInitialize (newAppInsightsCore ccOne) (some cfgGood)
            [pluginB, IPlugin.mk "B2" true true (some 7), pluginA]).1.consoleWarnings ∧
      (∃ u ∈ ((newAppInsightsCore ccOne).extensions ++
            [pluginB, IPlugin.mk "B2" true true (some 7), pluginA] ++
            ((cfgGood.extensions).getD [])) ++
          [channelPlugin (newAppInsightsCore ccOne).channelController],
        u.priority = some 7 ∧ u.identifier = prevId) ∧
      (∃ v ∈ ((newAppInsightsCore ccOne).extensions ++
            [pluginB, IPlugin.mk "B2" true true (some 7), pluginA] ++
            ((cfgGood.extensions).getD [])) ++
          [channelPlugin (newAppInsightsCore ccOne).channelController],
        v.priority = some 7 ∧ v.identifier = collId) :=
  c7_samePriorityWarns _ _ _ 7 rfl (by decide) (by decide)
    (fun c es => by simp [newAppInsightsCore, ccOne]) (by decide) (by decide)
